import Mathlib

/-!
Shallow embedding of the `Calculator` class of `src/yuh.py` and of the
`UserService` layer of `src/api/yuh.py`.

Modelling conventions:
* Python's numeric values (floats in the source) are embedded as exact
  rationals `ℚ`; the source manipulates them only through `+`, `-`, `*`,
  `/` and a `b == 0` test, so this idealization is adequate for the
  structural claims (branching, return types, what is stored, the
  counter).  The exactness of the arithmetic itself is a different
  matter: Python floats are IEEE-754 binary64 values whose operations
  round, and that claim is settled against the binary64 rounding model
  `fl64` defined near the end of this file.
* Python's `str(x)` applied to a numeric result is modelled by the
  executable rendering function `pyFloatStr`; no claim depends on the
  concrete digits it produces, only on which function is applied.
* A Python method that mutates `self` and returns a value is embedded as
  a pure function `Calculator → args → Value × Calculator`.
* The source calculator never raises: every code path of `add`,
  `subtract`, `multiply` and `divide` returns, which the totality of the
  Lean functions reflects.
-/

/-- Dynamically typed Python value as returned by the calculator methods:
either a number (float) or a string. -/
inductive Value where
  | num (q : ℚ)
  | str (s : String)
deriving DecidableEq

/-- Models Python's `str` applied to a numeric (float) result.  The exact
decimal rendering of CPython is abstracted by the canonical rational
rendering; every claim compares renderings produced by this same
function, never concrete digit strings. -/
def pyFloatStr (q : ℚ) : String :=
  toString q

/-- Renders a value the way an f-string interpolation `f"...{result}"`
would: numbers through `str`, strings as themselves. -/
def Value.render : Value → String
  | Value.num q => pyFloatStr q
  | Value.str s => s

/-- State of a `Calculator` object (`src/yuh.py`, lines 43-95): the
private fields `__result`, `__operations_performed`, `__operation_name`. -/
structure Calculator where
  result : ℚ
  operationsPerformed : ℕ
  operationName : String
deriving DecidableEq

/-- Constructor `Calculator.__init__`: result 0, zero operations, empty
operation name. -/
def Calculator.init : Calculator :=
  { result := 0, operationsPerformed := 0, operationName := "" }

/-- Getter `get_result` returning the stored `__result`. -/
def Calculator.get_result (c : Calculator) : ℚ :=
  c.result

/-- Getter `get_operation_name` returning the stored `__operation_name`. -/
def Calculator.get_operation_name (c : Calculator) : String :=
  c.operationName

/-- Property `operations_performed` returning the stored counter. -/
def Calculator.operations_performed (c : Calculator) : ℕ :=
  c.operationsPerformed

/-- Method `add`: stores `a + b`, increments the counter, sets the
operation name, returns the stored result (a number). -/
def Calculator.add (c : Calculator) (a b : ℚ) : Value × Calculator :=
  let r := a + b
  (Value.num r,
    { result := r, operationsPerformed := c.operationsPerformed + 1,
      operationName := "Addition" })

/-- Method `subtract`: stores `a - b`, increments the counter, sets the
operation name, returns the stored result (a number). -/
def Calculator.subtract (c : Calculator) (a b : ℚ) : Value × Calculator :=
  let r := a - b
  (Value.num r,
    { result := r, operationsPerformed := c.operationsPerformed + 1,
      operationName := "Subtraction" })

/-- Method `multiply`: stores `a * b`, increments the counter, sets the
operation name, returns the stored result (a number). -/
def Calculator.multiply (c : Calculator) (a b : ℚ) : Value × Calculator :=
  let r := a * b
  (Value.num r,
    { result := r, operationsPerformed := c.operationsPerformed + 1,
      operationName := "Multiplication" })

/-- Method `divide` (`src/yuh.py`, lines 89-95): first increments the
counter and sets the operation name; on a zero divisor it returns the
error string without touching `__result`; otherwise it stores `a / b`
and returns `str` of the stored result.  Note the return type is a
string on every path, unlike the other three methods. -/
def Calculator.divide (c : Calculator) (a b : ℚ) : Value × Calculator :=
  let c1 : Calculator :=
    { c with operationsPerformed := c.operationsPerformed + 1,
             operationName := "Division" }
  if b = 0 then
    (Value.str "Error: Cannot divide by zero", c1)
  else
    let r := a / b
    (Value.str (pyFloatStr r), { c1 with result := r })

/-- One call to any of the four operation methods, used to talk about
arbitrary sequences of calls. -/
inductive OpCall where
  | addOp (a b : ℚ)
  | subOp (a b : ℚ)
  | mulOp (a b : ℚ)
  | divOp (a b : ℚ)

/-- Applies one operation call to a calculator state. -/
def applyOp (c : Calculator) : OpCall → Value × Calculator
  | OpCall.addOp a b => c.add a b
  | OpCall.subOp a b => c.subtract a b
  | OpCall.mulOp a b => c.multiply a b
  | OpCall.divOp a b => c.divide a b

/-- Runs a sequence of operation calls, threading the state. -/
def runOps (c : Calculator) : List OpCall → Calculator
  | [] => c
  | op :: rest => runOps (applyOp c op).2 rest

lemma applyOp_operationsPerformed (c : Calculator) (op : OpCall) :
    (applyOp c op).2.operationsPerformed = c.operationsPerformed + 1 := by
  cases op with
  | addOp a b => rfl
  | subOp a b => rfl
  | mulOp a b => rfl
  | divOp a b =>
      simp only [applyOp, Calculator.divide]
      split <;> rfl

lemma runOps_operationsPerformed (ops : List OpCall) :
    ∀ c : Calculator,
      (runOps c ops).operationsPerformed = c.operationsPerformed + ops.length := by
  induction ops with
  | nil => intro c; rfl
  | cons op rest ih =>
      intro c
      simp only [runOps, List.length_cons, ih, applyOp_operationsPerformed]
      omega

/-- Claim C1: for every input `a` (and every calculator state),
`Calculator.divide(a, 0)` returns the error indicator string
`"Error: Cannot divide by zero"`; `divide` is a total function of the
state and its arguments, so no numeric fault is raised on any path. -/
theorem divide_by_zero_returns_error_string (c : Calculator) (a : ℚ) :
    (c.divide a 0).1 = Value.str "Error: Cannot divide by zero" := by
  simp [Calculator.divide]

/-- Claim C2, counterexample: at `a = 10`, `b = 4` (a nonzero divisor),
`divide` does not return the numeric quotient `10 / 4`; it returns a
string. -/
theorem divide_ten_four_not_numeric_quotient :
    (Calculator.init.divide 10 4).1 ≠ Value.num ((10 : ℚ) / 4) := by
  decide

/-- Claim C2, amended: for `b ≠ 0`, `divide` returns the string
rendering `str(a / b)` of the quotient, and stores the quotient `a / b`
as the running result. -/
theorem divide_nonzero_returns_quotient_string (c : Calculator) (a b : ℚ)
    (h : b ≠ 0) :
    (c.divide a b).1 = Value.str (pyFloatStr (a / b)) ∧
      (c.divide a b).2.result = a / b := by
  simp [Calculator.divide, h]

theorem divide_nonzero_returns_quotient_string_witness :
    (4 : ℚ) ≠ 0 ∧
      ((Calculator.init.divide 10 4).1 = Value.str (pyFloatStr ((10 : ℚ) / 4)) ∧
        (Calculator.init.divide 10 4).2.result = (10 : ℚ) / 4) :=
  ⟨by norm_num,
    divide_nonzero_returns_quotient_string Calculator.init 10 4 (by norm_num)⟩

/-- Claim C3, counterexample: after `add 5 3` followed by
`divide 10 0`, the stored result is still `8` — it reflects the earlier
addition, not the most recent call, whose value was the error string. -/
theorem get_result_stale_after_failed_divide :
    Calculator.get_result (((Calculator.init.add 5 3).2.divide 10 0).2) = 8 ∧
      ((Calculator.init.add 5 3).2.divide 10 0).1 ≠ Value.num 8 := by
  constructor
  · norm_num [Calculator.get_result, Calculator.divide, Calculator.add,
      Calculator.init]
  · simp [Calculator.divide, Calculator.add, Calculator.init]

/-- Claim C3, amended: after `add`, `subtract`, `multiply`, or a
`divide` with a nonzero divisor, `get_result` equals the value computed
by that call and the counter has increased by one; a `divide` with a
zero divisor leaves `get_result` unchanged (it still reflects the
previous operation) while the counter still increments. -/
theorem get_result_reflects_last_successful_operation (c : Calculator) (a b : ℚ) :
    ((c.add a b).1 = Value.num ((c.add a b).2.get_result) ∧
      (c.add a b).2.operationsPerformed = c.operationsPerformed + 1) ∧
    ((c.subtract a b).1 = Value.num ((c.subtract a b).2.get_result) ∧
      (c.subtract a b).2.operationsPerformed = c.operationsPerformed + 1) ∧
    ((c.multiply a b).1 = Value.num ((c.multiply a b).2.get_result) ∧
      (c.multiply a b).2.operationsPerformed = c.operationsPerformed + 1) ∧
    (b ≠ 0 → (c.divide a b).2.get_result = a / b) ∧
    ((c.divide a 0).2.get_result = c.get_result) ∧
    (c.divide a b).2.operationsPerformed = c.operationsPerformed + 1 := by
  refine ⟨⟨rfl, rfl⟩, ⟨rfl, rfl⟩, ⟨rfl, rfl⟩, ?_, ?_, ?_⟩
  · intro h
    simp [Calculator.divide, Calculator.get_result, h]
  · simp [Calculator.divide, Calculator.get_result]
  · simp only [Calculator.divide]
    split <;> rfl

theorem get_result_reflects_last_successful_operation_witness :
    ((Calculator.init.add 5 3).1 =
        Value.num ((Calculator.init.add 5 3).2.get_result) ∧
      (Calculator.init.add 5 3).2.operationsPerformed =
        Calculator.init.operationsPerformed + 1) ∧
    ((Calculator.init.subtract 5 3).1 =
        Value.num ((Calculator.init.subtract 5 3).2.get_result) ∧
      (Calculator.init.subtract 5 3).2.operationsPerformed =
        Calculator.init.operationsPerformed + 1) ∧
    ((Calculator.init.multiply 5 3).1 =
        Value.num ((Calculator.init.multiply 5 3).2.get_result) ∧
      (Calculator.init.multiply 5 3).2.operationsPerformed =
        Calculator.init.operationsPerformed + 1) ∧
    ((3 : ℚ) ≠ 0 → (Calculator.init.divide 5 3).2.get_result = (5 : ℚ) / 3) ∧
    ((Calculator.init.divide 5 0).2.get_result = Calculator.init.get_result) ∧
    (Calculator.init.divide 5 3).2.operationsPerformed =
      Calculator.init.operationsPerformed + 1 :=
  get_result_reflects_last_successful_operation Calculator.init 5 3

/-- Claim C8: `divide` returns a string on every path — `str(a / b)` for
a nonzero divisor and the error message for a zero divisor — while
`add`, `subtract` and `multiply` return numbers. -/
theorem divide_returns_string_others_numbers (c : Calculator) (a b : ℚ)
    (h : b ≠ 0) :
    (c.divide a b).1 = Value.str (pyFloatStr (a / b)) ∧
      (c.divide a 0).1 = Value.str "Error: Cannot divide by zero" ∧
      (c.add a b).1 = Value.num (a + b) ∧
      (c.subtract a b).1 = Value.num (a - b) ∧
      (c.multiply a b).1 = Value.num (a * b) := by
  refine ⟨?_, ?_, rfl, rfl, rfl⟩
  · simp [Calculator.divide, h]
  · simp [Calculator.divide]

theorem divide_returns_string_others_numbers_witness :
    (4 : ℚ) ≠ 0 ∧
      ((Calculator.init.divide 10 4).1 =
          Value.str (pyFloatStr ((10 : ℚ) / 4)) ∧
        (Calculator.init.divide 10 0).1 =
          Value.str "Error: Cannot divide by zero" ∧
        (Calculator.init.add 10 4).1 = Value.num ((10 : ℚ) + 4) ∧
        (Calculator.init.subtract 10 4).1 = Value.num ((10 : ℚ) - 4) ∧
        (Calculator.init.multiply 10 4).1 = Value.num ((10 : ℚ) * 4)) :=
  ⟨by norm_num,
    divide_returns_string_others_numbers Calculator.init 10 4 (by norm_num)⟩

/-- Claim C9: the counter starts at 0, every operation call — including
a divide with a zero divisor — increments it by exactly one, and after
any sequence of `n` calls it equals `n`. -/
theorem operations_counter_counts_calls :
    Calculator.init.operations_performed = 0 ∧
      (∀ (c : Calculator) (op : OpCall),
        (applyOp c op).2.operations_performed = c.operations_performed + 1) ∧
      (∀ ops : List OpCall,
        (runOps Calculator.init ops).operations_performed = ops.length) := by
  refine ⟨rfl, ?_, ?_⟩
  · intro c op
    exact applyOp_operationsPerformed c op
  · intro ops
    simp [Calculator.operations_performed, runOps_operationsPerformed,
      Calculator.init]

/-- Claim C10: a `divide` with a zero divisor leaves the stored result
unchanged while still incrementing the counter and setting the stored
operation name to "Division". -/
theorem failed_divide_frame (c : Calculator) (a : ℚ) :
    (c.divide a 0).2.get_result = c.get_result ∧
      (c.divide a 0).2.operations_performed = c.operations_performed + 1 ∧
      (c.divide a 0).2.get_operation_name = "Division" := by
  refine ⟨?_, ?_, ?_⟩ <;>
    simp [Calculator.divide, Calculator.get_result,
      Calculator.operations_performed, Calculator.get_operation_name]

/-!
Embedding of the `UserService` layer of `src/api/yuh.py` (the fenced
`models.py` and `services.py` code).  The SQLAlchemy session and table
are modelled by an in-memory store: a list of committed users plus the
next autoincrement id.  `db.session.commit()` always succeeds in this
single-threaded model (the `IntegrityError` branch guards a uniqueness
constraint that the preceding explicit check already rules out), and an
early `return` before `commit` leaves the committed store unchanged.
-/

/-- Row of the `users` table (`User` model).  Field values coming from
`user_data.get(...)` may be absent, hence the `Option` fields; `id` is
assigned by the store on commit. -/
structure User where
  id : ℕ
  name : Option String
  email : Option String
  age : Option Int
deriving DecidableEq

/-- Character class `[a-zA-Z0-9._%+-]` of the email regex (local part). -/
def isLocalChar (c : Char) : Bool :=
  c.isAlpha || c.isDigit || c == '.' || c == '_' || c == '%' || c == '+' || c == '-'

/-- Character class `[a-zA-Z0-9.-]` of the email regex (domain part). -/
def isDomainChar (c : Char) : Bool :=
  c.isAlpha || c.isDigit || c == '.' || c == '-'

/-- Matches the regex tail `[a-zA-Z0-9.-]+\.[a-zA-Z]\x7b2,\x7d$` against
the characters following the `@`: some split into a nonempty run of
domain characters, a literal dot, and at least two letters must exist
(the range over split positions realises the backtracking search). -/
def emailTail (r : List Char) : Bool :=
  (List.range r.length).any (fun i =>
    decide (1 ≤ i) && (r.take i).all isDomainChar &&
      (match r.drop i with
       | [] => false
       | d :: t => d == '.' && decide (2 ≤ t.length) && t.all Char.isAlpha))

/-- Matches the full email regex body against a character list: a
nonempty run of local characters, then `@` (which, being outside both
classes, can only be the first `@` of the string), then the tail. -/
def emailCore (cs : List Char) : Bool :=
  let l := cs.takeWhile (fun c => c != '@')
  decide (1 ≤ l.length) && l.all isLocalChar &&
    (match cs.drop l.length with
     | [] => false
     | a :: r => a == '@' && emailTail r)

/-- Static method `User.is_email_valid`: `re.match` of the anchored
pattern; Python's `$` also matches just before a single trailing
newline. -/
def is_email_valid (email : String) : Bool :=
  emailCore email.data ||
    (match email.data.getLast? with
     | some c => c == '\n' && emailCore email.data.dropLast
     | none => false)

/-- Method `User.is_valid`: name present, nonempty and at most 100
characters; email present, nonempty and matching the regex; age present
(an `int` in the model) and within 0..150. -/
def User.is_valid (u : User) : Bool :=
  match u.name with
  | none => false
  | some n =>
    if n.length = 0 ∨ n.length > 100 then false
    else
      match u.email with
      | none => false
      | some e =>
        if e.length = 0 ∨ is_email_valid e = false then false
        else
          match u.age with
          | none => false
          | some a => decide (0 ≤ a ∧ a ≤ 150)

/-- Committed database state: the rows of the `users` table and the next
autoincrement id. -/
structure Store where
  users : List User
  nextId : ℕ
deriving DecidableEq

/-- Service method `get_user_by_id`: `User.query.get(user_id)`, lookup by
primary key. -/
def get_user_by_id (s : Store) (user_id : ℕ) : Option User :=
  s.users.find? (fun u => u.id == user_id)

/-- Service method `get_user_by_email`:
`User.query.filter_by(email=email).first()`; the argument is the email
value compared against the stored column (a `none` argument matches SQL
NULL). -/
def get_user_by_email (s : Store) (email : Option String) : Option User :=
  s.users.find? (fun u => u.email == email)

/-- Input dictionary `user_data`; a field is `none` when the key is
absent. -/
structure UserData where
  name : Option String
  email : Option String
  age : Option Int
deriving DecidableEq

/-- User object built by `create_user` from `user_data` before
validation, with the id the store will assign on commit. -/
def new_user (s : Store) (d : UserData) : User :=
  { id := s.nextId, name := d.name, email := d.email, age := d.age }

/-- Service method `create_user`: builds the user, validates it, checks
email uniqueness, then commits (append to the table, bump the
autoincrement).  Returns the `(user, error)` tuple of the source
together with the resulting store. -/
def create_user (s : Store) (d : UserData) : (Option User × Option String) × Store :=
  let user := new_user s d
  if user.is_valid = false then
    ((none, some "Invalid user data"), s)
  else if (get_user_by_email s user.email).isSome then
    ((none, some "Email already exists"), s)
  else
    ((some user, none), { users := s.users ++ [user], nextId := s.nextId + 1 })

/-- Tail of `update_user` after the name and email updates: applies the
age update, validates the updated user, and commits by replacing the row
with the matching primary key. -/
def update_finish (s : Store) (user_id : ℕ) (d : UserData) (u : User) :
    (Option User × Option String) × Store :=
  let u2 : User :=
    match d.age with
    | some a => { u with age := some a }
    | none => u
  if u2.is_valid = false then
    ((none, some "Invalid user data"), s)
  else
    ((some u2, none),
      { users := s.users.map (fun x => if x.id = user_id then u2 else x),
        nextId := s.nextId })

/-- Service method `update_user`: fetches the user by id, applies the
name update, rejects an email update whose value is already held by a
different user, otherwise applies it and finishes with the age update,
validation and commit.  An early error return happens before any
commit, so the committed store is unchanged there. -/
def update_user (s : Store) (user_id : ℕ) (d : UserData) :
    (Option User × Option String) × Store :=
  match get_user_by_id s user_id with
  | none => ((none, some "User not found"), s)
  | some u =>
    let u1 : User :=
      match d.name with
      | some n => { u with name := some n }
      | none => u
    match d.email with
    | some e =>
      (match get_user_by_email s (some e) with
       | some w =>
         if w.id ≠ user_id then ((none, some "Email already exists"), s)
         else update_finish s user_id d { u1 with email := some e }
       | none => update_finish s user_id d { u1 with email := some e })
    | none => update_finish s user_id d u1

/-- Service method `delete_user`: fetches the user by id and removes the
row; returns the `(success, error)` tuple of the source. -/
def delete_user (s : Store) (user_id : ℕ) : (Bool × Option String) × Store :=
  match get_user_by_id s user_id with
  | none => ((false, some "User not found"), s)
  | some _ =>
    ((true, none),
      { users := s.users.filter (fun x => x.id != user_id), nextId := s.nextId })

lemma update_finish_tuple (s : Store) (user_id : ℕ) (d : UserData) (u : User) :
    ((update_finish s user_id d u).1.1.isSome = true ∧
        (update_finish s user_id d u).1.2 = none) ∨
      ((update_finish s user_id d u).1.1 = none ∧
        ∃ m, (update_finish s user_id d u).1.2 = some m ∧ m ≠ "") := by
  simp only [update_finish]
  split
  · right
    exact ⟨rfl, "Invalid user data", rfl, by decide⟩
  · left
    exact ⟨rfl, rfl⟩

/-- Claim C6, counterexample: with a stored user holding email
"a@b.co", a `user_data` that reuses that email but is invalid (its name
is absent) is rejected with "Invalid user data", not with
"Email already exists": the validity check runs before the uniqueness
check. -/
theorem create_user_invalid_duplicate_gets_other_message :
    (create_user ⟨[⟨1, some "Alice", some "a@b.co", some 30⟩], 2⟩
          ⟨none, some "a@b.co", some 25⟩).1.2 ≠ some "Email already exists" ∧
      (create_user ⟨[⟨1, some "Alice", some "a@b.co", some 30⟩], 2⟩
          ⟨none, some "a@b.co", some 25⟩).1.2 = some "Invalid user data" := by
  decide

/-- Claim C6, amended: `create_user` enforces email uniqueness for every
valid `user_data`: when the built user passes validation and its email is
already held by a stored user, it returns `(None, "Email already
exists")` and leaves the store unchanged (an invalid `user_data` with a
duplicate email is likewise rejected, but with "Invalid user data");
`update_user` rejects changing a user's email to one held by a different
user, returning the same error with the store unchanged. -/
theorem email_uniqueness_enforced :
    (∀ (s : Store) (d : UserData),
        (new_user s d).is_valid = true →
        (get_user_by_email s d.email).isSome = true →
        create_user s d = ((none, some "Email already exists"), s)) ∧
      (∀ (s : Store) (user_id : ℕ) (d : UserData) (e : String) (w u : User),
        d.email = some e →
        get_user_by_email s (some e) = some w →
        w.id ≠ user_id →
        get_user_by_id s user_id = some u →
        update_user s user_id d = ((none, some "Email already exists"), s)) := by
  constructor
  · intro s d hv he
    simp [create_user, new_user] at hv he ⊢
    simp [hv, he]
  · intro s user_id d e w u hd hw hne hid
    simp [update_user, hid, hd, hw, hne]

theorem email_uniqueness_enforced_witness :
    create_user ⟨[⟨1, some "Alice", some "a@b.co", some 30⟩], 2⟩
        ⟨some "Bob", some "a@b.co", some 25⟩ =
      ((none, some "Email already exists"),
        ⟨[⟨1, some "Alice", some "a@b.co", some 30⟩], 2⟩) ∧
    update_user
        ⟨[⟨1, some "Alice", some "a@b.co", some 30⟩,
          ⟨2, some "Bob", some "b@c.de", some 25⟩], 3⟩ 2
        ⟨none, some "a@b.co", none⟩ =
      ((none, some "Email already exists"),
        ⟨[⟨1, some "Alice", some "a@b.co", some 30⟩,
          ⟨2, some "Bob", some "b@c.de", some 25⟩], 3⟩) :=
  ⟨email_uniqueness_enforced.1
      ⟨[⟨1, some "Alice", some "a@b.co", some 30⟩], 2⟩
      ⟨some "Bob", some "a@b.co", some 25⟩ (by decide) (by decide),
    email_uniqueness_enforced.2
      ⟨[⟨1, some "Alice", some "a@b.co", some 30⟩,
        ⟨2, some "Bob", some "b@c.de", some 25⟩], 3⟩ 2
      ⟨none, some "a@b.co", none⟩ "a@b.co"
      ⟨1, some "Alice", some "a@b.co", some 30⟩
      ⟨2, some "Bob", some "b@c.de", some 25⟩
      rfl (by decide) (by decide) (by decide)⟩

/-- Claim C7: every `UserService` operation reports its outcome through
the returned tuple and never through an exception (the embedded
functions are total): `create_user` and `update_user` return either
`(user, None)` or `(None, m)` with `m` a nonempty message, and
`delete_user` returns either `(True, None)` or `(False, m)` with `m`
nonempty. -/
theorem userService_reports_errors_via_tuples :
    (∀ (s : Store) (d : UserData),
        ((create_user s d).1.1.isSome = true ∧ (create_user s d).1.2 = none) ∨
          ((create_user s d).1.1 = none ∧
            ∃ m, (create_user s d).1.2 = some m ∧ m ≠ "")) ∧
      (∀ (s : Store) (user_id : ℕ) (d : UserData),
        ((update_user s user_id d).1.1.isSome = true ∧
            (update_user s user_id d).1.2 = none) ∨
          ((update_user s user_id d).1.1 = none ∧
            ∃ m, (update_user s user_id d).1.2 = some m ∧ m ≠ "")) ∧
      (∀ (s : Store) (user_id : ℕ),
        ((delete_user s user_id).1.1 = true ∧
            (delete_user s user_id).1.2 = none) ∨
          ((delete_user s user_id).1.1 = false ∧
            ∃ m, (delete_user s user_id).1.2 = some m ∧ m ≠ "")) := by
  refine ⟨?_, ?_, ?_⟩
  · intro s d
    simp only [create_user]
    split
    · right
      exact ⟨rfl, "Invalid user data", rfl, by decide⟩
    · split
      · right
        exact ⟨rfl, "Email already exists", rfl, by decide⟩
      · left
        exact ⟨rfl, rfl⟩
  · intro s user_id d
    simp only [update_user]
    split
    · right
      exact ⟨rfl, "User not found", rfl, by decide⟩
    · split
      · split
        · split
          · right
            exact ⟨rfl, "Email already exists", rfl, by decide⟩
          · exact update_finish_tuple _ _ _ _
        · exact update_finish_tuple _ _ _ _
      · exact update_finish_tuple _ _ _ _
  · intro s user_id
    simp only [delete_user]
    split
    · right
      exact ⟨rfl, "User not found", rfl, by decide⟩
    · left
      exact ⟨rfl, rfl⟩

theorem userService_reports_errors_via_tuples_witness :
    (((create_user ⟨[], 1⟩ ⟨some "Bob", some "a@b.co", some 25⟩).1.1.isSome = true ∧
        (create_user ⟨[], 1⟩ ⟨some "Bob", some "a@b.co", some 25⟩).1.2 = none) ∨
      ((create_user ⟨[], 1⟩ ⟨some "Bob", some "a@b.co", some 25⟩).1.1 = none ∧
        ∃ m, (create_user ⟨[], 1⟩ ⟨some "Bob", some "a@b.co", some 25⟩).1.2 =
            some m ∧ m ≠ "")) ∧
    (((update_user ⟨[], 1⟩ 1 ⟨none, none, none⟩).1.1.isSome = true ∧
        (update_user ⟨[], 1⟩ 1 ⟨none, none, none⟩).1.2 = none) ∨
      ((update_user ⟨[], 1⟩ 1 ⟨none, none, none⟩).1.1 = none ∧
        ∃ m, (update_user ⟨[], 1⟩ 1 ⟨none, none, none⟩).1.2 = some m ∧ m ≠ "")) ∧
    (((delete_user ⟨[], 1⟩ 1).1.1 = true ∧ (delete_user ⟨[], 1⟩ 1).1.2 = none) ∨
      ((delete_user ⟨[], 1⟩ 1).1.1 = false ∧
        ∃ m, (delete_user ⟨[], 1⟩ 1).1.2 = some m ∧ m ≠ "")) :=
  ⟨userService_reports_errors_via_tuples.1 ⟨[], 1⟩
      ⟨some "Bob", some "a@b.co", some 25⟩,
    userService_reports_errors_via_tuples.2.1 ⟨[], 1⟩ 1 ⟨none, none, none⟩,
    userService_reports_errors_via_tuples.2.2 ⟨[], 1⟩ 1⟩

/-!
Embedding of the menu loop `calculator_with_error_handling` of
`src/yuh.py` (lines 165-210).  The user's typed lines are a list of
strings consumed left to right; `float(...)` is an arbitrary parse
function `pf` returning `none` when it raises `ValueError`.  Each
iteration consumes at least the choice line, so the run is recursion on
the input list.  Running out of input models `input()` raising
`EOFError`, which the generic handler catches (the real loop then spins
on the empty stream); the run records this as the `outOfInput` outcome,
distinct from the `goodbye` exit taken on choice "5".  A
`KeyboardInterrupt` is an asynchronous signal outside this deterministic
input model. -/

/-- Exit status of a finite run of the menu loop. -/
inductive Outcome where
  | goodbye
  | outOfInput
deriving DecidableEq

/-- Observable result of a finite run: the lines printed, the exit
status, and the final calculator state. -/
structure RunResult where
  output : List String
  outcome : Outcome
  final : Calculator
deriving DecidableEq

/-- Prefixes printed lines onto a run result. -/
def RunResult.withOutput (pre : List String) (r : RunResult) : RunResult :=
  { r with output := pre ++ r.output }

/-- Menu lines printed at the top of every iteration. -/
def menuLines : List String :=
  ["\nCalculator Menu:", "1. Add", "2. Subtract", "3. Multiply",
    "4. Divide", "5. Exit"]

/-- Line printed when the `ValueError` raised on an invalid choice is
caught. -/
def invalidChoiceMsg : String :=
  "Input Error: Invalid choice. Please enter 1-5."

/-- Line printed when the `ZeroDivisionError` raised on a zero second
number for choice "4" is caught. -/
def divideByZeroMsg : String :=
  "Math Error: Cannot divide by zero"

/-- Line printed when `input()` raises `EOFError` and the generic
handler catches it. -/
def eofMsg : String :=
  "Unexpected error: EOF when reading a line"

/-- Line printed when `float(...)` raises `ValueError` on the given text
and the handler catches it (the quoting CPython puts around the text is
elided). -/
def parseErrMsg (s : String) : String :=
  "Input Error: could not convert string to float: " ++ s

/-- Dispatch on a validated menu choice, calling the corresponding
calculator method. -/
def applyChoice (c : Calculator) (choice : String) (n1 n2 : ℚ) :
    Value × Calculator :=
  if choice = "1" then c.add n1 n2
  else if choice = "2" then c.subtract n1 n2
  else if choice = "3" then c.multiply n1 n2
  else c.divide n1 n2

/-- One run of `calculator_with_error_handling` over a finite list of
input lines: choice "5" exits with "Goodbye!"; a choice outside
"1"-"5" prints the invalid-choice message and loops; otherwise the two
numbers are read (a parse failure or end of input prints an error and
loops, consuming only the lines read so far); choice "4" with a zero
second number prints the math error and loops without calling the
calculator; otherwise the operation runs and its result is printed. -/
def runLoop (pf : String → Option ℚ) : Calculator → List String → RunResult
  | c, [] => { output := menuLines, outcome := Outcome.outOfInput, final := c }
  | c, choice :: rest =>
    if choice = "5" then
      { output := menuLines ++ ["Goodbye!"], outcome := Outcome.goodbye,
        final := c }
    else if choice = "1" ∨ choice = "2" ∨ choice = "3" ∨ choice = "4" then
      match rest with
      | [] => RunResult.withOutput (menuLines ++ [eofMsg]) (runLoop pf c [])
      | s1 :: rest1 =>
        match pf s1 with
        | none =>
          RunResult.withOutput (menuLines ++ [parseErrMsg s1]) (runLoop pf c rest1)
        | some n1 =>
          match rest1 with
          | [] => RunResult.withOutput (menuLines ++ [eofMsg]) (runLoop pf c [])
          | s2 :: rest2 =>
            match pf s2 with
            | none =>
              RunResult.withOutput (menuLines ++ [parseErrMsg s2])
                (runLoop pf c rest2)
            | some n2 =>
              if choice = "4" ∧ n2 = 0 then
                RunResult.withOutput (menuLines ++ [divideByZeroMsg])
                  (runLoop pf c rest2)
              else
                RunResult.withOutput
                  (menuLines ++ ["Result: " ++ (applyChoice c choice n1 n2).1.render])
                  (runLoop pf (applyChoice c choice n1 n2).2 rest2)
    else
      RunResult.withOutput (menuLines ++ [invalidChoiceMsg]) (runLoop pf c rest)
termination_by c ins => ins.length
decreasing_by all_goals simp <;> omega

lemma runLoop_goodbye_mem (pf : String → Option ℚ) :
    ∀ (c : Calculator) (ins : List String),
      (runLoop pf c ins).outcome = Outcome.goodbye → "5" ∈ ins := by
  intro c ins
  induction c, ins using runLoop.induct pf with
  | case1 c =>
      intro h
      simp [runLoop] at h
  | case2 c rest =>
      intro _
      exact List.mem_cons_self _ _
  | case3 c choice h5 hv ih =>
      intro h
      rw [runLoop.eq_def] at h
      simp [runLoop, RunResult.withOutput, h5, hv] at h
  | case4 c choice h5 hv s1 rest1 hp1 ih =>
      intro h
      rw [runLoop.eq_def] at h
      simp [RunResult.withOutput, h5, hv, hp1] at h
      exact List.mem_cons_of_mem _ (List.mem_cons_of_mem _ (ih h))
  | case5 c choice h5 hv s1 n1 hp1 ih =>
      intro h
      rw [runLoop.eq_def] at h
      simp [runLoop, RunResult.withOutput, h5, hv, hp1] at h
  | case6 c choice h5 hv s1 n1 hp1 s2 rest2 hp2 ih =>
      intro h
      rw [runLoop.eq_def] at h
      simp [RunResult.withOutput, h5, hv, hp1, hp2] at h
      exact List.mem_cons_of_mem _
        (List.mem_cons_of_mem _ (List.mem_cons_of_mem _ (ih h)))
  | case7 c choice h5 hv s1 n1 hp1 s2 rest2 n2 hp2 h40 ih =>
      intro h
      rw [runLoop.eq_def] at h
      simp [RunResult.withOutput, h5, hv, hp1, hp2, h40.1, h40.2] at h
      exact List.mem_cons_of_mem _
        (List.mem_cons_of_mem _ (List.mem_cons_of_mem _ (ih h)))
  | case8 c choice h5 hv s1 n1 hp1 s2 rest2 n2 hp2 h40 ih =>
      intro h
      rw [runLoop.eq_def] at h
      simp [RunResult.withOutput, h5, hv, hp1, hp2, h40] at h
      exact List.mem_cons_of_mem _
        (List.mem_cons_of_mem _ (List.mem_cons_of_mem _ (ih h)))
  | case9 c choice rest h5 hnv ih =>
      intro h
      rw [runLoop.eq_def] at h
      simp [RunResult.withOutput, h5, hnv] at h
      exact List.mem_cons_of_mem _ (ih h)

/-- Claim C5: an invalid menu choice (anything other than "1"-"5")
never crashes or ends the loop: the run is a total function, the
iteration prints the invalid-choice error and continues on the remaining
input with the same calculator (same further output, same exit status,
same final state), and a run exits with "Goodbye!" only when a "5"
occurs among the inputs. -/
theorem invalid_choice_recovers (pf : String → Option ℚ) (c : Calculator)
    (inv : String) (rest : List String)
    (h : ¬(inv = "1" ∨ inv = "2" ∨ inv = "3" ∨ inv = "4" ∨ inv = "5")) :
    ((runLoop pf c (inv :: rest)).output =
        menuLines ++ [invalidChoiceMsg] ++ (runLoop pf c rest).output ∧
      (runLoop pf c (inv :: rest)).outcome = (runLoop pf c rest).outcome ∧
      (runLoop pf c (inv :: rest)).final = (runLoop pf c rest).final) ∧
    (∀ (ins : List String) (c2 : Calculator),
      (runLoop pf c2 ins).outcome = Outcome.goodbye → "5" ∈ ins) := by
  push_neg at h
  obtain ⟨h1, h2, h3, h4, h5⟩ := h
  have hnv : ¬(inv = "1" ∨ inv = "2" ∨ inv = "3" ∨ inv = "4") := by
    simp [h1, h2, h3, h4]
  constructor
  · refine ⟨?_, ?_, ?_⟩ <;>
      (rw [runLoop.eq_def]; simp [RunResult.withOutput, h5, hnv])
  · intro ins c2 hg
    exact runLoop_goodbye_mem pf c2 ins hg

theorem invalid_choice_recovers_witness :
    (¬(("7" : String) = "1" ∨ ("7" : String) = "2" ∨ ("7" : String) = "3" ∨
        ("7" : String) = "4" ∨ ("7" : String) = "5")) ∧
      ((runLoop (fun _ => none) Calculator.init ["7"]).output =
          menuLines ++ [invalidChoiceMsg] ++
            (runLoop (fun _ => none) Calculator.init []).output ∧
        (runLoop (fun _ => none) Calculator.init ["7"]).outcome =
          (runLoop (fun _ => none) Calculator.init []).outcome ∧
        (runLoop (fun _ => none) Calculator.init ["7"]).final =
          (runLoop (fun _ => none) Calculator.init []).final) :=
  ⟨by decide,
    (invalid_choice_recovers (fun _ => none) Calculator.init "7" []
      (by decide)).1⟩

/-!
Binary64 model for the exactness of the arithmetic itself.  Python
floats are IEEE-754 binary64 values, and CPython's `+`, `-`, `*` on them
return the exact mathematical result rounded to the nearest
representable double (ties to even, overflow to infinity).  The model
below embeds a finite double as the rational it denotes; `fl64` is the
binary64 rounding of an exact rational, and `float_add`,
`float_subtract`, `float_multiply` are the values computed and returned
by `Calculator.add`, `Calculator.subtract`, `Calculator.multiply`
(`src/yuh.py`, lines 71-88) when the source's float arithmetic is
embedded at full IEEE-754 precision rather than idealized as exact.
-/

/-- Result of a binary64 operation on finite doubles: a finite value
(the rational it denotes) or an infinity produced by overflow. -/
inductive F64 where
  | finite (q : ℚ)
  | inf
  | ninf
deriving DecidableEq

/-- Floor of the base-two logarithm of a positive rational, computed
from the bit lengths of the numerator and denominator with a one-step
correction. -/
def ratLog2 (x : ℚ) : ℤ :=
  if (2 : ℚ) ^ ((Nat.log2 x.num.natAbs : ℤ) - Nat.log2 x.den + 1) ≤ x then
    (Nat.log2 x.num.natAbs : ℤ) - Nat.log2 x.den + 1
  else if (2 : ℚ) ^ ((Nat.log2 x.num.natAbs : ℤ) - Nat.log2 x.den) ≤ x then
    (Nat.log2 x.num.natAbs : ℤ) - Nat.log2 x.den
  else (Nat.log2 x.num.natAbs : ℤ) - Nat.log2 x.den - 1

/-- Rounds a rational to the nearest integer, ties to even. -/
def rne (x : ℚ) : ℤ :=
  if x - ⌊x⌋ < 1 / 2 then ⌊x⌋
  else if 1 / 2 < x - ⌊x⌋ then ⌊x⌋ + 1
  else if ⌊x⌋ % 2 = 0 then ⌊x⌋ else ⌊x⌋ + 1

/-- Exponent of one unit in the last place of a binary64 number of the
given magnitude: 52 bits below the leading bit, clamped at the
subnormal minimum 2 ^ -1074. -/
def ulpExp (x : ℚ) : ℤ := max (ratLog2 x - 52) (-1074)

/-- Binary64 rounding of a positive magnitude, with the exponent range
unbounded above (the overflow cutoff is applied by `fl64`). -/
def roundMag (x : ℚ) : ℚ := (rne (x / 2 ^ ulpExp x) : ℚ) * 2 ^ ulpExp x

/-- IEEE-754 binary64 rounding of an exact rational: round to nearest,
ties to even, overflowing to the signed infinity when the rounded
magnitude reaches 2 ^ 1024. -/
def fl64 (q : ℚ) : F64 :=
  if q = 0 then F64.finite 0
  else if (2 : ℚ) ^ (1024 : ℤ) ≤ roundMag |q| then
    (if q < 0 then F64.ninf else F64.inf)
  else F64.finite (if q < 0 then -roundMag |q| else roundMag |q|)

/-- Value computed and returned by `Calculator.add` under the source's
binary64 float semantics: the correctly rounded exact sum. -/
def float_add (a b : ℚ) : F64 := fl64 (a + b)

/-- Value computed and returned by `Calculator.subtract` under the
source's binary64 float semantics: the correctly rounded exact
difference. -/
def float_subtract (a b : ℚ) : F64 := fl64 (a - b)

/-- Value computed and returned by `Calculator.multiply` under the
source's binary64 float semantics: the correctly rounded exact
product. -/
def float_multiply (a b : ℚ) : F64 := fl64 (a * b)

/-- Two-adic valuation with explicit fuel (the number itself bounds the
number of halvings), kept structural so that it evaluates on concrete
inputs. -/
def val2Aux : ℕ → ℕ → ℕ
  | 0, _ => 0
  | fuel + 1, n => if n % 2 = 0 ∧ n ≠ 0 then val2Aux fuel (n / 2) + 1 else 0

/-- Number of factors of two in a natural number. -/
def val2 (n : ℕ) : ℕ := val2Aux n n

/-- Decides whether a rational is a finite binary64 value, that is, of
the form m * 2 ^ e with |m| < 2 ^ 53 and -1074 ≤ e ≤ 971: for an
integer, the odd part must fit in 53 bits (shifted down to exponent 971
when the two-adic valuation exceeds it); for a fraction, the reduced
denominator must be a power of two of exponent at most 1074 and the
numerator must fit in 53 bits. -/
def isRep64 (q : ℚ) : Bool :=
  if q = 0 then true
  else if q.den = 1 then
    if val2 q.num.natAbs ≤ 971 then
      decide (q.num.natAbs / 2 ^ val2 q.num.natAbs < 2 ^ 53)
    else
      decide (q.num.natAbs / 2 ^ 971 < 2 ^ 53)
  else if q.den = 2 ^ Nat.log2 q.den then
    decide (Nat.log2 q.den ≤ 1074) && decide (q.num.natAbs < 2 ^ 53)
  else false

lemma ratLog2_spec (x : ℚ) (hx : 0 < x) :
    (2 : ℚ) ^ ratLog2 x ≤ x ∧ x < (2 : ℚ) ^ (ratLog2 x + 1) := by
  have hnum : 0 < x.num := Rat.num_pos.mpr hx
  set a := x.num.natAbs with hadef
  set b := x.den with hbdef
  have ha0 : a ≠ 0 := Int.natAbs_ne_zero.mpr (ne_of_gt hnum)
  have hb0 : 0 < b := x.den_pos
  have ha1 : 2 ^ Nat.log2 a ≤ a := Nat.log2_self_le ha0
  have ha2 : a < 2 ^ (Nat.log2 a + 1) := Nat.lt_log2_self
  have hb1 : 2 ^ Nat.log2 b ≤ b := Nat.log2_self_le hb0.ne'
  have hb2 : b < 2 ^ (Nat.log2 b + 1) := Nat.lt_log2_self
  have hiz : ((a : ℤ)) = x.num := Int.natAbs_of_nonneg hnum.le
  have hcast : ((a : ℚ)) = (x.num : ℚ) := by
    rw [show ((a : ℚ)) = (((a : ℤ)) : ℚ) by push_cast; ring, hiz]
  have hxab : (a : ℚ) / (b : ℚ) = x := by
    rw [hcast]
    exact Rat.num_div_den x
  have hbq : (0 : ℚ) < (b : ℚ) := by exact_mod_cast hb0
  have hub : x < (2 : ℚ) ^ ((Nat.log2 a : ℤ) - Nat.log2 b + 1) := by
    have h1 : x < ((2 : ℚ) ^ (Nat.log2 a + 1)) / ((2 : ℚ) ^ Nat.log2 b) := by
      rw [← hxab]
      gcongr
      · exact_mod_cast ha2
      · exact_mod_cast hb1
    calc x < ((2 : ℚ) ^ (Nat.log2 a + 1)) / ((2 : ℚ) ^ Nat.log2 b) := h1
      _ = (2 : ℚ) ^ ((Nat.log2 a : ℤ) - Nat.log2 b + 1) := by
          rw [← zpow_natCast (2 : ℚ) (Nat.log2 a + 1), ← zpow_natCast (2 : ℚ) (Nat.log2 b),
            ← zpow_sub₀ (by norm_num : (2 : ℚ) ≠ 0)]
          congr 1
          push_cast
          ring
  have hlb : (2 : ℚ) ^ ((Nat.log2 a : ℤ) - Nat.log2 b - 1) ≤ x := by
    have h1 : ((2 : ℚ) ^ Nat.log2 a) / ((2 : ℚ) ^ (Nat.log2 b + 1)) ≤ x := by
      rw [← hxab]
      gcongr
      · exact_mod_cast ha1
      · exact_mod_cast hb2.le
    calc (2 : ℚ) ^ ((Nat.log2 a : ℤ) - Nat.log2 b - 1)
        = ((2 : ℚ) ^ Nat.log2 a) / ((2 : ℚ) ^ (Nat.log2 b + 1)) := by
          rw [← zpow_natCast (2 : ℚ) (Nat.log2 a), ← zpow_natCast (2 : ℚ) (Nat.log2 b + 1),
            ← zpow_sub₀ (by norm_num : (2 : ℚ) ≠ 0)]
          congr 1
          push_cast
          ring
      _ ≤ x := h1
  rw [ratLog2]
  split_ifs with h1 h2
  · exact absurd h1 (not_le.mpr hub)
  · exact ⟨h2, hub⟩
  · refine ⟨hlb, ?_⟩
    have : (Nat.log2 a : ℤ) - Nat.log2 b - 1 + 1 = (Nat.log2 a : ℤ) - Nat.log2 b := by ring
    rw [this]
    exact not_le.mp h2

lemma ratLog2_eq (x : ℚ) (e : ℤ) (h1 : (2 : ℚ) ^ e ≤ x) (h2 : x < (2 : ℚ) ^ (e + 1)) :
    ratLog2 x = e := by
  have hx : 0 < x := lt_of_lt_of_le (zpow_pos (by norm_num) e) h1
  obtain ⟨g1, g2⟩ := ratLog2_spec x hx
  by_contra hne
  rcases lt_or_gt_of_ne hne with hlt | hgt
  · have hle : (2 : ℚ) ^ (ratLog2 x + 1) ≤ (2 : ℚ) ^ e :=
      zpow_le_zpow_right₀ one_le_two (by omega)
    exact absurd h1 (not_le.mpr (lt_of_lt_of_le g2 hle))
  · have hle : (2 : ℚ) ^ (e + 1) ≤ (2 : ℚ) ^ ratLog2 x :=
      zpow_le_zpow_right₀ one_le_two (by omega)
    exact absurd g1 (not_le.mpr (lt_of_lt_of_le h2 hle))

lemma rne_intCast (m : ℤ) : rne (m : ℚ) = m := by
  rw [rne, Int.floor_intCast]
  norm_num

lemma roundMag_fixes (n : ℕ) (e : ℤ) (hn0 : 0 < n) (hn : n < 2 ^ 53) (he : -1074 ≤ e) :
    roundMag ((n : ℚ) * 2 ^ e) = (n : ℚ) * 2 ^ e := by
  set x : ℚ := (n : ℚ) * 2 ^ e with hxdef
  have hx : 0 < x := mul_pos (by exact_mod_cast hn0) (zpow_pos (by norm_num) e)
  obtain ⟨hL1, hL2⟩ := ratLog2_spec x hx
  have hules : ulpExp x ≤ e := by
    have hxlt : x < (2 : ℚ) ^ (e + 53) := by
      have hcast : ((n : ℚ)) < (2 : ℚ) ^ (53 : ℤ) := by
        rw [show ((2 : ℚ) ^ (53 : ℤ)) = ((2 ^ 53 : ℕ) : ℚ) by push_cast; norm_num]
        exact_mod_cast hn
      have h53 : x < (2 : ℚ) ^ (53 : ℤ) * 2 ^ e := by
        rw [hxdef]
        exact mul_lt_mul_of_pos_right hcast (zpow_pos (by norm_num) e)
      have heq : (2 : ℚ) ^ (53 : ℤ) * 2 ^ e = 2 ^ (e + 53) := by
        rw [← zpow_add₀ (by norm_num : (2 : ℚ) ≠ 0)]
        congr 1
        omega
      rw [← heq]
      exact h53
    have hlt : (2 : ℚ) ^ ratLog2 x < (2 : ℚ) ^ (e + 53) := lt_of_le_of_lt hL1 hxlt
    have : ratLog2 x < e + 53 := (zpow_lt_zpow_iff_right₀ one_lt_two).mp hlt
    rw [ulpExp]
    omega
  set u := ulpExp x with hudef
  have hkk : e - u = ((e - u).toNat : ℤ) := (Int.toNat_of_nonneg (by omega)).symm
  set k : ℕ := (e - u).toNat
  have harg : x / 2 ^ u = ((n * 2 ^ k : ℕ) : ℚ) := by
    rw [hxdef, div_eq_mul_inv, ← zpow_neg, mul_assoc,
      ← zpow_add₀ (by norm_num : (2 : ℚ) ≠ 0)]
    rw [show e + -u = (k : ℤ) by omega, zpow_natCast]
    push_cast
    ring
  rw [roundMag, ← hudef, harg]
  rw [show ((n * 2 ^ k : ℕ) : ℚ) = (((n * 2 ^ k : ℕ) : ℤ) : ℚ) by push_cast; ring,
    rne_intCast]
  push_cast
  rw [← zpow_natCast (2 : ℚ) k, mul_assoc, ← zpow_add₀ (by norm_num : (2 : ℚ) ≠ 0)]
  rw [show (k : ℤ) + u = e by omega]

lemma fl64_fixes (m e : ℤ) (hm : m.natAbs < 2 ^ 53) (he1 : -1074 ≤ e) (he2 : e ≤ 971) :
    fl64 ((m : ℚ) * 2 ^ e) = F64.finite ((m : ℚ) * 2 ^ e) := by
  rcases eq_or_ne m 0 with rfl | hm0
  · norm_num [fl64]
  · set q : ℚ := (m : ℚ) * 2 ^ e with hqdef
    have hq0 : q ≠ 0 :=
      mul_ne_zero (Int.cast_ne_zero.mpr hm0) (zpow_ne_zero _ (by norm_num))
    have habs : |q| = (m.natAbs : ℚ) * 2 ^ e := by
      rw [hqdef, abs_mul, abs_of_pos (zpow_pos (by norm_num : (0:ℚ) < 2) e),
        Int.cast_natAbs, Int.cast_abs]
    have hfix : roundMag |q| = |q| := by
      rw [habs]
      exact roundMag_fixes m.natAbs e (Int.natAbs_pos.mpr hm0) hm he1
    have hlt : |q| < (2 : ℚ) ^ (1024 : ℤ) := by
      rw [habs]
      have hna : ((m.natAbs : ℚ)) < (2 : ℚ) ^ (53 : ℤ) := by
        rw [show ((2 : ℚ) ^ (53 : ℤ)) = ((2 ^ 53 : ℕ) : ℚ) by push_cast; norm_num]
        exact_mod_cast hm
      calc (m.natAbs : ℚ) * 2 ^ e ≤ (m.natAbs : ℚ) * 2 ^ (971 : ℤ) :=
            mul_le_mul_of_nonneg_left (zpow_le_zpow_right₀ one_le_two he2)
              (Nat.cast_nonneg _)
        _ < (2 : ℚ) ^ (53 : ℤ) * 2 ^ (971 : ℤ) :=
            mul_lt_mul_of_pos_right hna (zpow_pos (by norm_num) _)
        _ = (2 : ℚ) ^ (1024 : ℤ) := by
            rw [← zpow_add₀ (by norm_num : (2 : ℚ) ≠ 0)]
            norm_num
    rw [fl64, if_neg hq0, if_neg (by rw [hfix]; exact not_le.mpr hlt), hfix]
    rcases lt_or_ge q 0 with hneg | hpos
    · rw [if_pos hneg, abs_of_neg hneg, neg_neg]
    · rw [if_neg (not_lt.mpr hpos), abs_of_nonneg hpos]

lemma val2Aux_dvd : ∀ fuel n : ℕ, n ≤ fuel → 2 ^ val2Aux fuel n ∣ n := by
  intro fuel
  induction fuel with
  | zero =>
      intro n h
      simp [val2Aux]
  | succ f ih =>
      intro n h
      rw [val2Aux]
      split_ifs with hcond
      · obtain ⟨heven, hne⟩ := hcond
        obtain ⟨c, hc⟩ := ih (n / 2) (by omega)
        refine ⟨c, ?_⟩
        calc n = 2 * (n / 2) := by omega
          _ = 2 * (2 ^ val2Aux f (n / 2) * c) := by conv_lhs => rw [hc]
          _ = 2 ^ (val2Aux f (n / 2) + 1) * c := by rw [pow_succ]; ring
      · simp

lemma val2_dvd (n : ℕ) : 2 ^ val2 n ∣ n := val2Aux_dvd n n le_rfl

lemma repr_abs (q : ℚ) (c : ℕ) (e : ℤ) (habs : |q| = (c : ℚ) * 2 ^ e)
    (hc : c < 2 ^ 53) (he1 : -1074 ≤ e) (he2 : e ≤ 971) :
    ∃ m e2 : ℤ, q = (m : ℚ) * 2 ^ e2 ∧ m.natAbs < 2 ^ 53 ∧ -1074 ≤ e2 ∧ e2 ≤ 971 := by
  rcases le_or_lt 0 q with hq | hq
  · refine ⟨(c : ℤ), e, ?_, by simpa using hc, he1, he2⟩
    rw [← abs_of_nonneg hq, habs]
    push_cast
    ring
  · refine ⟨-(c : ℤ), e, ?_, by simpa using hc, he1, he2⟩
    have : q = -|q| := by rw [abs_of_neg hq, neg_neg]
    rw [this, habs]
    push_cast
    ring

lemma isRep64_spec (q : ℚ) (h : isRep64 q = true) :
    ∃ m e : ℤ, q = (m : ℚ) * 2 ^ e ∧ m.natAbs < 2 ^ 53 ∧ -1074 ≤ e ∧ e ≤ 971 := by
  by_cases h0 : q = 0
  · exact ⟨0, 0, by simp [h0], by norm_num, by norm_num, by norm_num⟩
  rw [isRep64, if_neg h0] at h
  have habsnum : |q| = (q.num.natAbs : ℚ) / (q.den : ℚ) := by
    conv_lhs => rw [← Rat.num_div_den q]
    rw [abs_div, abs_of_pos (by exact_mod_cast q.den_pos : (0:ℚ) < (q.den : ℚ)),
      Int.cast_natAbs, Int.cast_abs]
  by_cases hd1 : q.den = 1
  · rw [if_pos hd1] at h
    have habs1 : |q| = (q.num.natAbs : ℚ) := by
      rw [habsnum, hd1]
      norm_num
    set n := q.num.natAbs with hndef
    set t := val2 n with htdef
    by_cases ht : t ≤ 971
    · rw [if_pos ht] at h
      have hcond : n / 2 ^ t < 2 ^ 53 := of_decide_eq_true h
      obtain ⟨c, hc⟩ := val2_dvd n
      have hco : n / 2 ^ t = c := by
        rw [hc]
        exact Nat.mul_div_cancel_left c (Nat.two_pow_pos t)
      refine repr_abs q c t ?_ (hco ▸ hcond) (by omega) (by exact_mod_cast ht)
      rw [habs1, hc, zpow_natCast]
      push_cast
      ring
    · rw [if_neg ht] at h
      have hcond : n / 2 ^ 971 < 2 ^ 53 := of_decide_eq_true h
      have hdvd : (2 : ℕ) ^ 971 ∣ n :=
        dvd_trans (pow_dvd_pow 2 (by omega)) (val2_dvd n)
      obtain ⟨c, hc⟩ := hdvd
      have hco : n / 2 ^ 971 = c := by
        rw [hc]
        exact Nat.mul_div_cancel_left c (Nat.two_pow_pos 971)
      refine repr_abs q c ((971 : ℕ) : ℤ) ?_ (hco ▸ hcond) (by omega) (by omega)
      rw [habs1, hc, zpow_natCast]
      push_cast
      ring
  · rw [if_neg hd1] at h
    by_cases hpow : q.den = 2 ^ Nat.log2 q.den
    · rw [if_pos hpow] at h
      simp only [Bool.and_eq_true, decide_eq_true_eq] at h
      obtain ⟨hk, hn⟩ := h
      refine repr_abs q q.num.natAbs (-(Nat.log2 q.den : ℤ)) ?_ hn (by omega) (by omega)
      rw [habsnum, zpow_neg, zpow_natCast, div_eq_mul_inv]
      have hden : ((q.den : ℚ)) = (2 : ℚ) ^ Nat.log2 q.den := by
        conv_lhs => rw [hpow]
        push_cast
        ring
      rw [hden]
    · rw [if_neg hpow] at h
      exact absurd h (by norm_num)

lemma fl64_of_isRep64 (q : ℚ) (h : isRep64 q = true) : fl64 q = F64.finite q := by
  obtain ⟨m, e, hq, hm, he1, he2⟩ := isRep64_spec q h
  rw [hq]
  exact fl64_fixes m e hm he1 he2

/-- Claim C4, counterexample: under the source's float semantics
(IEEE-754 binary64), `Calculator.add` at `a = 1`, `b = 2 ^ -53` — both
inputs exact doubles, as the last two conjuncts certify — returns `1`,
which is not the mathematical sum `1 + 2 ^ -53`: the sum falls halfway
between consecutive doubles and rounds to even.  The addition therefore
deviates from the exact mathematical result. -/
theorem float_add_rounds_at_one_ulp :
    float_add 1 (1 / 2 ^ 53) = F64.finite 1 ∧
    (1 : ℚ) + 1 / 2 ^ 53 ≠ 1 ∧
    fl64 1 = F64.finite 1 ∧
    fl64 (1 / 2 ^ 53) = F64.finite (1 / 2 ^ 53) := by
  refine ⟨?_, by norm_num, ?_, ?_⟩
  · have hq0 : (1 : ℚ) + 1 / 2 ^ 53 ≠ 0 := by positivity
    have hL : ratLog2 ((1 : ℚ) + 1 / 2 ^ 53) = 0 := by
      apply ratLog2_eq
      · norm_num
      · norm_num
    have hu : ulpExp ((1 : ℚ) + 1 / 2 ^ 53) = -52 := by
      rw [ulpExp, hL]
      norm_num
    have habs : |(1 : ℚ) + 1 / 2 ^ 53| = (1 : ℚ) + 1 / 2 ^ 53 :=
      abs_of_pos (by positivity)
    have harg : ((1 : ℚ) + 1 / 2 ^ 53) / 2 ^ (-52 : ℤ) = ((2 ^ 52 : ℤ) : ℚ) + 1 / 2 := by
      rw [zpow_neg, div_eq_mul_inv, inv_inv]
      push_cast
      norm_num
    have hfloor : ⌊((2 ^ 52 : ℤ) : ℚ) + 1 / 2⌋ = 2 ^ 52 := by
      rw [Int.floor_eq_iff]
      constructor
      · norm_num
      · push_cast
        norm_num
    have hrne : rne (((2 ^ 52 : ℤ) : ℚ) + 1 / 2) = 2 ^ 52 := by
      rw [rne, hfloor]
      norm_num
    have hrm : roundMag |(1 : ℚ) + 1 / 2 ^ 53| = 1 := by
      rw [habs, roundMag, hu, harg, hrne]
      push_cast
      rw [zpow_neg]
      norm_num
    have h1024 : (1 : ℚ) < 2 ^ (1024 : ℤ) := by
      calc (1 : ℚ) = 2 ^ (0 : ℤ) := by norm_num
        _ < 2 ^ (1024 : ℤ) := (zpow_lt_zpow_iff_right₀ one_lt_two).mpr (by norm_num)
    show fl64 ((1 : ℚ) + 1 / 2 ^ 53) = F64.finite 1
    rw [fl64, if_neg hq0, hrm, if_neg (not_le.mpr h1024),
      if_neg (by norm_num : ¬ ((1 : ℚ) + 1 / 2 ^ 53) < 0)]
  · have h := fl64_fixes 1 0 (by decide) (by decide) (by decide)
    rw [show ((1 : ℤ) : ℚ) * 2 ^ (0 : ℤ) = 1 by norm_num] at h
    exact h
  · have h := fl64_fixes 1 (-53) (by decide) (by decide) (by decide)
    rw [show ((1 : ℤ) : ℚ) * 2 ^ (-53 : ℤ) = 1 / 2 ^ 53 by
      rw [zpow_neg]
      norm_num] at h
    exact h

/-- Claim C4, amended: under the source's binary64 float semantics,
`Calculator.add`, `Calculator.subtract` and `Calculator.multiply`
return the IEEE-754 rounding of the mathematical result, which equals
the exact `a + b`, `a - b`, `a * b` whenever that result is
representable as a finite double (in particular at the repository's own
example `add(5, 3) = 8`), and can deviate otherwise, as at
`add(1, 2 ^ -53)`. -/
theorem float_ops_exact_on_representable (a b : ℚ) :
    (isRep64 (a + b) = true → float_add a b = F64.finite (a + b)) ∧
    (isRep64 (a - b) = true → float_subtract a b = F64.finite (a - b)) ∧
    (isRep64 (a * b) = true → float_multiply a b = F64.finite (a * b)) :=
  ⟨fun h => fl64_of_isRep64 _ h, fun h => fl64_of_isRep64 _ h,
    fun h => fl64_of_isRep64 _ h⟩

theorem float_ops_exact_on_representable_witness :
    (isRep64 ((5 : ℚ) + 3) = true ∧ float_add 5 3 = F64.finite ((5 : ℚ) + 3)) ∧
    (isRep64 ((5 : ℚ) - 3) = true ∧ float_subtract 5 3 = F64.finite ((5 : ℚ) - 3)) ∧
    (isRep64 ((5 : ℚ) * 3) = true ∧ float_multiply 5 3 = F64.finite ((5 : ℚ) * 3)) := by
  have h1 : isRep64 ((5 : ℚ) + 3) = true := by
    rw [show ((5 : ℚ) + 3) = 8 by norm_num]
    decide
  have h2 : isRep64 ((5 : ℚ) - 3) = true := by
    rw [show ((5 : ℚ) - 3) = 2 by norm_num]
    decide
  have h3 : isRep64 ((5 : ℚ) * 3) = true := by
    rw [show ((5 : ℚ) * 3) = 15 by norm_num]
    decide
  exact ⟨⟨h1, (float_ops_exact_on_representable 5 3).1 h1⟩,
    ⟨h2, (float_ops_exact_on_representable 5 3).2.1 h2⟩,
    ⟨h3, (float_ops_exact_on_representable 5 3).2.2 h3⟩⟩
